import Mathlib

/-!
Verification of the dynamic code management and sandboxed execution subsystem
of the mako-code backend (`src/backend/main.py`, `src/backend/functions/utils.py`,
`src/backend/functions/sql_parser.py`).

The Python code is shallowly embedded: pure text manipulation (the regex
operations of `sql_parser.py`, the string assembly of `utils.py`) is translated
into executable Lean functions over `List Char` / `String`; external effects
(the Python `ast` parser, the `ruff` linter, the filesystem, the Polars SQL
engine) are passed in as explicit oracle parameters, so every modelled function
is total and its control flow mirrors the source line by line.

Conventions: `\s` and `\w` of Python's `re` module are modelled over their
ASCII ranges (all inputs appearing in the claims are ASCII).
-/

/-- ASCII word character, Python regex `\w` (over ASCII inputs). -/
def isWordChar (c : Char) : Bool := c.isAlphanum || c = '_'

/-- ASCII whitespace, Python regex `\s` / `str.strip` (space, tab, LF, CR, FF, VT). -/
def isPySpace (c : Char) : Bool :=
  c = ' ' || c = '\t' || c = '\n' || c = '\x0d' || c = '\x0c' || c = '\x0b'

/-- Match a literal character sequence at the head of the input, returning the rest. -/
def dropLit : List Char → List Char → Option (List Char)
  | [], cs => some cs
  | _ :: _, [] => none
  | a :: l, c :: cs => if a = c then dropLit l cs else none

/-- Case-insensitive variant of `dropLit` (Python `re.IGNORECASE`). -/
def dropLitCI : List Char → List Char → Option (List Char)
  | [], cs => some cs
  | _ :: _, [] => none
  | a :: l, c :: cs => if a.toLower = c.toLower then dropLitCI l cs else none

theorem dropLit_length : ∀ (l cs r : List Char), dropLit l cs = some r →
    r.length + l.length = cs.length
  | [], cs, r, h => by
    simp [dropLit] at h
    simp [h]
  | _ :: _, [], _, h => by simp [dropLit] at h
  | a :: l, c :: cs, r, h => by
    by_cases hac : a = c
    · simp [dropLit, hac] at h
      have := dropLit_length l cs r h
      simp only [List.length_cons]
      omega
    · simp [dropLit, hac] at h

theorem dropLitCI_length : ∀ (l cs r : List Char), dropLitCI l cs = some r →
    r.length + l.length = cs.length
  | [], cs, r, h => by
    simp [dropLitCI] at h
    simp [h]
  | _ :: _, [], _, h => by simp [dropLitCI] at h
  | a :: l, c :: cs, r, h => by
    by_cases hac : a.toLower = c.toLower
    · simp [dropLitCI, hac] at h
      have := dropLitCI_length l cs r h
      simp only [List.length_cons]
      omega
    · simp [dropLitCI, hac] at h

theorem length_dropWhile_le (p : Char → Bool) :
    ∀ cs : List Char, (cs.dropWhile p).length ≤ cs.length
  | [] => by simp [List.dropWhile]
  | c :: cs => by
    by_cases hp : p c
    · simp only [List.dropWhile, hp]
      have := length_dropWhile_le p cs
      simp only [List.length_cons]
      omega
    · simp only [List.dropWhile, hp]
      simp

theorem length_takeWhile_le (p : Char → Bool) :
    ∀ cs : List Char, (cs.takeWhile p).length ≤ cs.length
  | [] => by simp [List.takeWhile]
  | c :: cs => by
    by_cases hp : p c
    · simp only [List.takeWhile, hp]
      have := length_takeWhile_le p cs
      simp only [List.length_cons]
      omega
    · simp only [List.takeWhile, hp]
      simp

theorem length_dropWhile_lt (p : Char → Bool) (cs : List Char)
    (h : cs.takeWhile p ≠ []) : (cs.dropWhile p).length < cs.length := by
  cases cs with
  | nil => simp [List.takeWhile] at h
  | cons c cs =>
    by_cases hp : p c
    · simp only [List.dropWhile, hp]
      have := length_dropWhile_le p cs
      simp only [List.length_cons]
      omega
    · simp [List.takeWhile, hp] at h

/-- Python `str.strip()`: remove leading and trailing whitespace. -/
def pyStrip (cs : List Char) : List Char :=
  ((cs.dropWhile isPySpace).reverse.dropWhile isPySpace).reverse

/-- Python `str.rstrip()`: remove trailing whitespace. -/
def pyRStrip (cs : List Char) : List Char :=
  (cs.reverse.dropWhile isPySpace).reverse

def pyStripStr (s : String) : String := String.mk (pyStrip s.data)

def pyRStripStr (s : String) : String := String.mk (pyRStrip s.data)

/-- Python `", ".join`-style concatenation. -/
def pyJoin (sep : String) : List String → String
  | [] => ""
  | [x] => x
  | x :: y :: xs => x ++ sep ++ pyJoin sep (y :: xs)

/-! ### `sql_parser.py` — the regex operations of `parse_sql_code`

Each Python regex used by the source is compiled by hand into a deterministic
scanner.  All four patterns alternate disjoint character classes (`\s` versus a
literal, `\s` versus `\w`), so greedy matching needs no backtracking except for
the final `\s*\n` of the save-directive line pattern, where the match ends at
the last newline of the maximal whitespace run. -/

def atSqlChars : List Char := ['@', 's', 'q', 'l']

def dashDash : List Char := ['-', '-']

def saveAsLit : List Char := ['s', 'a', 'v', 'e', '_', 'a', 's', ':']

/-- Attempt of `--\s*save_as:\s*(\w+)` at the head of the input, returning the capture. -/
def matchSaveAsAt (cs : List Char) : Option (List Char) :=
  match dropLit dashDash cs with
  | none => none
  | some r1 =>
    match dropLit saveAsLit (r1.dropWhile isPySpace) with
    | none => none
    | some r3 =>
      let w := (r3.dropWhile isPySpace).takeWhile isWordChar
      if w = [] then none else some w

/-- Python `re.search(r'--\s*save_as:\s*(\w+)', code)`: first match's capture. -/
def searchSaveAs : List Char → Option (List Char)
  | [] => none
  | c :: cs =>
    match matchSaveAsAt (c :: cs) with
    | some w => some w
    | none => searchSaveAs cs

/-- Attempt of `@sql\s*` at the head of the input, returning the rest after the match. -/
def matchAtSqlAt (cs : List Char) : Option (List Char) :=
  (dropLit atSqlChars cs).map (fun r => r.dropWhile isPySpace)

theorem matchAtSqlAt_length (cs r : List Char) (h : matchAtSqlAt cs = some r) :
    r.length + 4 ≤ cs.length := by
  unfold matchAtSqlAt at h
  cases hd : dropLit atSqlChars cs with
  | none => rw [hd] at h; simp at h
  | some r1 =>
    rw [hd] at h
    simp only [Option.map_some', Option.some.injEq] at h
    have h1 := dropLit_length _ _ _ hd
    have h2 := length_dropWhile_le isPySpace r1
    simp only [atSqlChars, List.length_cons, List.length_nil] at h1
    subst h
    omega

/-- Python `re.sub(r'@sql\s*', '', code)`: delete every leftmost, non-overlapping
match. Structural recursion on a fuel bound so that the function reduces in the
kernel; every step strictly shrinks the input, so fuel `length + 1` never runs
out (`subAtSqlFuel_eq`). -/
def subAtSqlFuel : Nat → List Char → List Char
  | 0, cs => cs
  | _ + 1, [] => []
  | fuel + 1, c :: cs =>
    match matchAtSqlAt (c :: cs) with
    | some rest => subAtSqlFuel fuel rest
    | none => c :: subAtSqlFuel fuel cs

def subAtSql (cs : List Char) : List Char := subAtSqlFuel (cs.length + 1) cs

theorem subAtSqlFuel_eq : ∀ (f1 f2 : Nat) (cs : List Char),
    cs.length < f1 → cs.length < f2 → subAtSqlFuel f1 cs = subAtSqlFuel f2 cs
  | 0, _, _, h1, _ => absurd h1 (by omega)
  | _ + 1, 0, _, _, h2 => absurd h2 (by omega)
  | _ + 1, _ + 1, [], _, _ => rfl
  | f1 + 1, f2 + 1, c :: cs, h1, h2 => by
    simp only [subAtSqlFuel]
    simp only [List.length_cons] at h1 h2
    cases hm : matchAtSqlAt (c :: cs) with
    | some rest =>
      have := matchAtSqlAt_length _ _ hm
      simp only [List.length_cons] at this
      exact subAtSqlFuel_eq f1 f2 rest (by omega) (by omega)
    | none =>
      rw [subAtSqlFuel_eq f1 f2 cs (by omega) (by omega)]

/-- Index of the last newline in a character list, if any. -/
def lastNewlineIdx : List Char → Option Nat
  | [] => none
  | c :: cs =>
    match lastNewlineIdx cs with
    | some k => some (k + 1)
    | none => if c = '\n' then some 0 else none

theorem lastNewlineIdx_lt : ∀ (cs : List Char) (k : Nat),
    lastNewlineIdx cs = some k → k < cs.length
  | [], k, h => by simp [lastNewlineIdx] at h
  | c :: cs, k, h => by
    simp only [lastNewlineIdx] at h
    cases ht : lastNewlineIdx cs with
    | some j =>
      rw [ht] at h
      simp only [Option.some.injEq] at h
      have := lastNewlineIdx_lt cs j ht
      simp only [List.length_cons]
      omega
    | none =>
      rw [ht] at h
      by_cases hc : c = '\n'
      · simp [hc] at h
        simp [← h]
      · simp [hc] at h

/-- Attempt of `--\s*save_as:\s*\w+\s*\n` at the head of the input: the trailing
`\s*\n` (greedy, with backtracking) ends at the last newline of the maximal
whitespace run following the captured word. Returns the rest after the match. -/
def matchSaveAsLineAt (cs : List Char) : Option (List Char) :=
  match dropLit dashDash cs with
  | none => none
  | some r1 =>
    match dropLit saveAsLit (r1.dropWhile isPySpace) with
    | none => none
    | some r3 =>
      let r4 := r3.dropWhile isPySpace
      if r4.takeWhile isWordChar = [] then none
      else
        let r5 := r4.dropWhile isWordChar
        match lastNewlineIdx (r5.takeWhile isPySpace) with
        | none => none
        | some k => some (r5.drop (k + 1))

theorem matchSaveAsLineAt_length (cs r : List Char) (h : matchSaveAsLineAt cs = some r) :
    r.length < cs.length := by
  unfold matchSaveAsLineAt at h
  cases h1 : dropLit dashDash cs with
  | none => rw [h1] at h; simp at h
  | some r1 =>
    rw [h1] at h
    dsimp only at h
    cases h3 : dropLit saveAsLit (r1.dropWhile isPySpace) with
    | none => rw [h3] at h; simp at h
    | some r3 =>
      rw [h3] at h
      dsimp only at h
      by_cases hw : (r3.dropWhile isPySpace).takeWhile isWordChar = []
      · simp [hw] at h
      · simp only [hw, if_false] at h
        cases hk : lastNewlineIdx (((r3.dropWhile isPySpace).dropWhile isWordChar).takeWhile isPySpace) with
        | none => rw [hk] at h; simp at h
        | some k =>
          rw [hk] at h
          simp only [Option.some.injEq] at h
          have hlen1 := dropLit_length _ _ _ h1
          have hlen2 := length_dropWhile_le isPySpace r1
          have hlen3 := dropLit_length _ _ _ h3
          have hlen4 := length_dropWhile_lt isWordChar (r3.dropWhile isPySpace) hw
          have hlen5 := length_dropWhile_le isPySpace r3
          have hk1 := lastNewlineIdx_lt _ _ hk
          have hk2 := length_takeWhile_le isPySpace ((r3.dropWhile isPySpace).dropWhile isWordChar)
          subst h
          rw [List.length_drop]
          simp only [dashDash, saveAsLit, List.length_cons, List.length_nil] at hlen1 hlen3
          omega

/-- Python `re.sub(r'--\s*save_as:\s*\w+\s*\n', '', q)`, fuel-structured like
`subAtSqlFuel`. -/
def subSaveAsLineFuel : Nat → List Char → List Char
  | 0, cs => cs
  | _ + 1, [] => []
  | fuel + 1, c :: cs =>
    match matchSaveAsLineAt (c :: cs) with
    | some rest => subSaveAsLineFuel fuel rest
    | none => c :: subSaveAsLineFuel fuel cs

def subSaveAsLine (cs : List Char) : List Char := subSaveAsLineFuel (cs.length + 1) cs

theorem subSaveAsLineFuel_eq : ∀ (f1 f2 : Nat) (cs : List Char),
    cs.length < f1 → cs.length < f2 → subSaveAsLineFuel f1 cs = subSaveAsLineFuel f2 cs
  | 0, _, _, h1, _ => absurd h1 (by omega)
  | _ + 1, 0, _, _, h2 => absurd h2 (by omega)
  | _ + 1, _ + 1, [], _, _ => rfl
  | f1 + 1, f2 + 1, c :: cs, h1, h2 => by
    simp only [subSaveAsLineFuel]
    simp only [List.length_cons] at h1 h2
    cases hm : matchSaveAsLineAt (c :: cs) with
    | some rest =>
      have := matchSaveAsLineAt_length _ _ hm
      simp only [List.length_cons] at this
      exact subSaveAsLineFuel_eq f1 f2 rest (by omega) (by omega)
    | none =>
      rw [subSaveAsLineFuel_eq f1 f2 cs (by omega) (by omega)]

/-- One alternative of `\b(?:FROM|JOIN)\s+(\w+)`: keyword (case-insensitive),
then `\s+`, then the captured `\w+`. Returns (capture, rest after the match). -/
def tryKw (kw : List Char) (cs : List Char) : Option (List Char × List Char) :=
  match dropLitCI kw cs with
  | none => none
  | some r1 =>
    if r1.takeWhile isPySpace = [] then none
    else
      let r2 := r1.dropWhile isPySpace
      let w := r2.takeWhile isWordChar
      if w = [] then none else some (w, r2.dropWhile isWordChar)

theorem tryKw_length (kw cs w rest : List Char) (hkw : kw ≠ [])
    (h : tryKw kw cs = some (w, rest)) : rest.length < cs.length := by
  unfold tryKw at h
  cases h1 : dropLitCI kw cs with
  | none => rw [h1] at h; simp at h
  | some r1 =>
    rw [h1] at h
    dsimp only at h
    by_cases hsp : r1.takeWhile isPySpace = []
    · simp [hsp] at h
    · simp only [hsp, if_false] at h
      by_cases hw : (r1.dropWhile isPySpace).takeWhile isWordChar = []
      · simp [hw] at h
      · simp only [hw, if_false, Option.some.injEq, Prod.mk.injEq] at h
        have hlen1 := dropLitCI_length _ _ _ h1
        have hlen2 := length_dropWhile_le isPySpace r1
        have hlen3 := length_dropWhile_le isWordChar (r1.dropWhile isPySpace)
        have hrest : rest.length ≤ (r1.dropWhile isPySpace).length := by
          rw [← h.2]
          exact length_dropWhile_le _ _
        cases kw with
        | nil => exact absurd rfl hkw
        | cons a l =>
          simp only [List.length_cons] at hlen1
          omega

def fromChars : List Char := ['f', 'r', 'o', 'm']

def joinChars : List Char := ['j', 'o', 'i', 'n']

/-- Attempt of `\b(?:FROM|JOIN)\s+(\w+)` at the head of the input (the `\b`
context is handled by the caller). Alternatives tried in pattern order. -/
def matchFromJoinAt (cs : List Char) : Option (List Char × List Char) :=
  match tryKw fromChars cs with
  | some r => some r
  | none => tryKw joinChars cs

theorem matchFromJoinAt_length (cs w rest : List Char)
    (h : matchFromJoinAt cs = some (w, rest)) : rest.length < cs.length := by
  unfold matchFromJoinAt at h
  cases h1 : tryKw fromChars cs with
  | some r =>
    rw [h1] at h
    simp only [Option.some.injEq] at h
    subst h
    exact tryKw_length _ _ _ _ (by simp [fromChars]) h1
  | none =>
    rw [h1] at h
    exact tryKw_length _ _ _ _ (by simp [joinChars]) h

/-- Python `re.findall(r'\b(?:FROM|JOIN)\s+(\w+)', q, re.IGNORECASE)`: scan for
leftmost non-overlapping matches, collecting the captures. `prevIsWord` tracks
whether the preceding character is a word character (for the `\b` assertion;
after a match the scan resumes right after the captured `\w+`, whose last
character is a word character). -/
def findFromJoinFuel : Nat → Bool → List Char → List (List Char)
  | 0, _, _ => []
  | _ + 1, _, [] => []
  | fuel + 1, prevIsWord, c :: rest =>
    if prevIsWord then findFromJoinFuel fuel (isWordChar c) rest
    else
      match matchFromJoinAt (c :: rest) with
      | some (w, after) => w :: findFromJoinFuel fuel true after
      | none => findFromJoinFuel fuel (isWordChar c) rest

def findFromJoin (prevIsWord : Bool) (cs : List Char) : List (List Char) :=
  findFromJoinFuel (cs.length + 1) prevIsWord cs

theorem findFromJoinFuel_eq : ∀ (f1 f2 : Nat) (b : Bool) (cs : List Char),
    cs.length < f1 → cs.length < f2 →
    findFromJoinFuel f1 b cs = findFromJoinFuel f2 b cs
  | 0, _, _, _, h1, _ => absurd h1 (by omega)
  | _ + 1, 0, _, _, _, h2 => absurd h2 (by omega)
  | _ + 1, _ + 1, _, [], _, _ => rfl
  | f1 + 1, f2 + 1, b, c :: cs, h1, h2 => by
    simp only [findFromJoinFuel]
    simp only [List.length_cons] at h1 h2
    cases b with
    | true =>
      simp only [if_true]
      exact findFromJoinFuel_eq f1 f2 (isWordChar c) cs (by omega) (by omega)
    | false =>
      simp only [Bool.false_eq_true, if_false]
      cases hm : matchFromJoinAt (c :: cs) with
      | some r =>
        obtain ⟨w, after⟩ := r
        have := matchFromJoinAt_length _ w after hm
        simp only [List.length_cons] at this
        dsimp only
        rw [findFromJoinFuel_eq f1 f2 true after (by omega) (by omega)]
      | none =>
        exact findFromJoinFuel_eq f1 f2 (isWordChar c) cs (by omega) (by omega)

/-! ### `sql_parser.py` — `parse_sql_code` and `validate_datasets`

`parse_sql_code` builds `list(set(re.findall(...)))`. CPython's `set` iteration
order is hash-dependent and unspecified, so the model takes the enumeration as
an explicit parameter `setList`; `SetListSpec` states exactly what Python
guarantees about it: the result enumerates the distinct elements of its input,
in some order. -/

/-- What CPython guarantees about `list(set(xs))`: same membership, no duplicates. -/
def SetListSpec (f : List String → List String) : Prop :=
  ∀ l : List String, (f l).Nodup ∧ ∀ x : String, x ∈ f l ↔ x ∈ l

theorem dedup_setListSpec : SetListSpec (fun l => l.dedup) := by
  intro l
  exact ⟨List.nodup_dedup l, fun x => List.mem_dedup⟩

/-- The normalized query text: `re.sub(r'@sql\s*', '', code)`, then removal of
the save-directive line, then `strip()` (lines 20-21 of `sql_parser.py`). -/
def normalized_query_chars (code : String) : List Char :=
  pyStrip (subSaveAsLine (subAtSql code.data))

/-- The raw (pre-`set`) referenced-table list: captures of
`\b(?:FROM|JOIN)\s+(\w+)` over the normalized query (line 26 of `sql_parser.py`). -/
def referenced_tables_raw (code : String) : List String :=
  (findFromJoin false (normalized_query_chars code)).map String.mk

/-- The save directive: first capture of `--\s*save_as:\s*(\w+)` over the raw
input (lines 16-17 of `sql_parser.py`). -/
def save_directive (code : String) : Option String :=
  (searchSaveAs code.data).map String.mk

/-- Model of `parse_sql_code` (sql_parser.py lines 5-28): returns
`(sql_query, save_as, dataset_names)`. -/
def parse_sql_code (setList : List String → List String) (code : String) :
    String × Option String × List String :=
  (String.mk (normalized_query_chars code), save_directive code,
    setList (referenced_tables_raw code))

/-- Model of `validate_datasets` (sql_parser.py lines 30-46): collect every
name whose dataset file does not exist; dataset existence is the oracle
`existsFn`. Returns `(is_valid, missing_datasets)`. -/
def validate_datasets (names : List String) (existsFn : String → Bool) :
    Bool × List String :=
  let missing := names.filter (fun n => !existsFn n)
  (missing.isEmpty, missing)

/-! ### `functions/utils.py` — `execute_sql`

Dataset existence on disk and the Polars SQL engine are oracles. Both failure
paths of the Python function raise `ValueError`, modelled as `Except.error`. -/

/-- Outcome of the Polars `ctx.execute(...).collect()` step (an oracle):
either a result DataFrame (its `str` rendering) or a raised exception message. -/
inductive EngineOutcome where
  | ok (resultRepr : String)
  | err (msg : String)
deriving DecidableEq

/-- Model of `execute_sql` (utils.py lines 11-49). `existsFn` is the
`(DATASET_DIR / f"{name}.parquet").exists()` check; loading/registering the
datasets and the optional `save` are I/O with no effect on the returned value. -/
def execute_sql (setList : List String → List String) (existsFn : String → Bool)
    (engine : EngineOutcome) (code : String) : Except String String :=
  let names := (parse_sql_code setList code).2.2
  let v := validate_datasets names existsFn
  if !v.1 then
    Except.error ("Missing datasets: " ++ pyJoin ", " v.2)
  else
    match engine with
    | EngineOutcome.ok r => Except.ok r
    | EngineOutcome.err m => Except.error ("SQL execution error: " ++ m)

/-! ### `main.py` — `is_safe_code` (lines 121-173)

The Python `ast` is an oracle: a source string is represented by the list of
its AST nodes in `ast.walk` (breadth-first) order, keeping only the fields the
validator inspects. `ruff` is an oracle: `none` for a clean run, `some line`
for the first reported line when the exit code is non-zero. -/

/-- An AST node as seen by `is_safe_code`'s walk: an `ast.Import` (the dotted
names of its aliases), an `ast.ImportFrom` (its `module`, which is `none` for a
relative import), a call whose callee is a bare name, or anything else. -/
inductive PyNode where
  | imp (names : List String)
  | impFrom (module? : Option String)
  | callName (func : String)
  | other
deriving DecidableEq

/-- The `STDLIB_MODULES` set of main.py lines 95-107, verbatim. -/
def STDLIB_MODULES : List String :=
  ["abc", "argparse", "array", "ast", "asyncio", "base64", "binascii", "bisect",
   "calendar", "collections", "concurrent", "contextlib", "copy", "csv", "datetime",
   "decimal", "difflib", "duckdb", "enum", "fileinput", "fnmatch", "fractions", "functools",
   "glob", "gzip", "hashlib", "heapq", "hmac", "html", "http", "imaplib", "imghdr",
   "importlib", "inspect", "io", "ipaddress", "itertools", "json", "keyword", "linecache",
   "locale", "logging", "math", "mimetypes", "numbers", "operator", "os", "pathlib",
   "pickle", "pickletools", "platform", "pprint", "queue", "random", "re", "reprlib",
   "secrets", "selectors", "shelve", "shlex", "shutil", "signal", "socket", "socketserver",
   "statistics", "string", "struct", "subprocess", "sys", "tempfile", "textwrap", "threading",
   "time", "timeit", "token", "tokenize", "traceback", "types", "typing", "unicodedata",
   "unittest", "urllib", "uuid", "warnings", "wave", "weakref", "xml", "xmlrpc", "zipfile", "zlib"]

/-- The `ALLOWED_EXTERNAL_MODULES` set of main.py lines 110-119, verbatim. -/
def ALLOWED_EXTERNAL_MODULES : List String :=
  ["polars", "functions", "pyarrow", "bokeh", "sklearn", "matplotlib", "seaborn",
   "google.cloud"]

/-- Python `name.split('.')[0]`. -/
def rootModule (m : String) : String := String.mk (m.data.takeWhile (fun c => c ≠ '.'))

/-- The import admissibility test of main.py lines 132-133 / 139-140: root in
the standard-library set, or the full dotted name has an allowed prefix. -/
def importOk (m : String) : Bool :=
  STDLIB_MODULES.contains (rootModule m)
    || ALLOWED_EXTERNAL_MODULES.any (fun a => List.isPrefixOf a.data m.data)

def unsafeImportMsg (m : String) : String :=
  "Unsafe import detected: " ++ m ++
    " - only standard library modules, polars and mako functions are allowed"

def unsafeCallMsg (n : String) : String := "Unsafe function call detected: " ++ n

/-- Policy check of one walked node (main.py lines 127-147), returning the
error message the loop would return on it, `none` if the node passes. A
relative `ImportFrom` (`module` is `None`) makes line 140 call
`None.startswith`, whose `AttributeError` is caught at line 172; the loop
aborts with the corresponding message either way. -/
def nodeCheck : PyNode → Option String
  | PyNode.imp names =>
    names.findSome? (fun n => if importOk n then none else some (unsafeImportMsg n))
  | PyNode.impFrom (some m) => if importOk m then none else some (unsafeImportMsg m)
  | PyNode.impFrom none =>
    some "Code validation error: 'NoneType' object has no attribute 'startswith'"
  | PyNode.callName n => if n = "eval" || n = "exec" then some (unsafeCallMsg n) else none
  | PyNode.other => none

/-- Model of `is_safe_code` (main.py lines 121-173). `parse` is the `ast.parse`
oracle (`Except.error` = `SyntaxError` with its message); `lint` is the `ruff`
oracle. Returns `(is_safe, error_message)`. -/
def is_safe_code (parse : Except String (List PyNode)) (lint : Option String) :
    Bool × String :=
  match parse with
  | Except.error e => (false, "Syntax error: " ++ e)
  | Except.ok nodes =>
    match nodes.findSome? nodeCheck with
    | some msg => (false, msg)
    | none =>
      match lint with
      | some firstLine => (false, firstLine)
      | none => (true, "")

/-! ### `main.py` — `create_safe_globals` (lines 175-269)

The namespace is a finite association list; each value is tagged by what the
source binds to it (a module object, a class imported from a module, a builtin
function, or the synthetic `SafeMako` class of lines 229-234). -/

/-- What a name in the sandbox globals is bound to. -/
inductive SafeVal where
  | module (dotted : String)
  | pyClass (dotted : String)
  | builtinFn (fname : String)
  | synthetic (desc : String)
deriving DecidableEq

/-- Model of `create_safe_globals` (main.py lines 175-269): the exact bindings
inserted, in source order. -/
def create_safe_globals : List (String × SafeVal) :=
  [("pl", SafeVal.module "polars"),
   ("polars", SafeVal.module "polars"),
   ("os", SafeVal.module "os"),
   ("pyarrow", SafeVal.module "pyarrow"),
   ("bokeh", SafeVal.module "bokeh"),
   ("storage", SafeVal.module "google.cloud.storage"),
   ("bigquery", SafeVal.module "google.cloud.bigquery"),
   ("bigquery_storage", SafeVal.module "google.cloud.bigquery_storage"),
   ("sklearn", SafeVal.module "sklearn"),
   ("matplotlib", SafeVal.module "matplotlib"),
   ("plt", SafeVal.module "matplotlib.pyplot"),
   ("seaborn", SafeVal.module "seaborn"),
   ("sns", SafeVal.module "seaborn"),
   ("datetime", SafeVal.pyClass "datetime.datetime"),
   ("timedelta", SafeVal.pyClass "datetime.timedelta"),
   ("date", SafeVal.pyClass "datetime.date"),
   ("time", SafeVal.pyClass "datetime.time"),
   ("timezone", SafeVal.pyClass "datetime.timezone"),
   ("random", SafeVal.module "random"),
   ("functions", SafeVal.synthetic "SafeMako"),
   ("abs", SafeVal.builtinFn "abs"),
   ("all", SafeVal.builtinFn "all"),
   ("any", SafeVal.builtinFn "any"),
   ("bool", SafeVal.builtinFn "bool"),
   ("dict", SafeVal.builtinFn "dict"),
   ("enumerate", SafeVal.builtinFn "enumerate"),
   ("filter", SafeVal.builtinFn "filter"),
   ("float", SafeVal.builtinFn "float"),
   ("format", SafeVal.builtinFn "format"),
   ("frozenset", SafeVal.builtinFn "frozenset"),
   ("int", SafeVal.builtinFn "int"),
   ("isinstance", SafeVal.builtinFn "isinstance"),
   ("len", SafeVal.builtinFn "len"),
   ("list", SafeVal.builtinFn "list"),
   ("map", SafeVal.builtinFn "map"),
   ("max", SafeVal.builtinFn "max"),
   ("min", SafeVal.builtinFn "min"),
   ("print", SafeVal.builtinFn "print"),
   ("range", SafeVal.builtinFn "range"),
   ("repr", SafeVal.builtinFn "repr"),
   ("reversed", SafeVal.builtinFn "reversed"),
   ("round", SafeVal.builtinFn "round"),
   ("set", SafeVal.builtinFn "set"),
   ("slice", SafeVal.builtinFn "slice"),
   ("sorted", SafeVal.builtinFn "sorted"),
   ("str", SafeVal.builtinFn "str"),
   ("sum", SafeVal.builtinFn "sum"),
   ("tuple", SafeVal.builtinFn "tuple"),
   ("zip", SafeVal.builtinFn "zip")]

/-- Following the spec's words (§4.2): Python modules that provide file,
environment/network, or process primitives (e.g. `os.environ`, `os.remove`,
`os.system`), which the spec says are excluded from the namespace. -/
def specFileEnvNetworkModules : List String :=
  ["os", "io", "subprocess", "socket", "shutil", "pathlib", "tempfile"]

/-- Following the spec's words (§4.2): builtin names that are file, network,
or dynamic-evaluation primitives. -/
def specDangerousBuiltins : List String :=
  ["eval", "exec", "compile", "open", "input", "__import__", "getattr", "globals"]

/-- Spec-side reading of "name bound to a file, environment/network, or
dynamic-evaluation primitive" for a binding of the sandbox namespace. -/
def bindsForbiddenPrimitive : String × SafeVal → Bool
  | (_, SafeVal.module d) => specFileEnvNetworkModules.contains (rootModule d)
  | (_, SafeVal.pyClass _) => false
  | (_, SafeVal.builtinFn f) => specDangerousBuiltins.contains f
  | (_, SafeVal.synthetic _) => false

/-! ### `main.py` — the `/execute` endpoint (lines 271-357) -/

/-- The structured response of the `/execute` endpoint (`ExecutionResponse`). -/
structure ExecResp where
  success : Bool
  output : String
  error_type : Option String
deriving DecidableEq

/-- Outcome of `exec(compile(code, '<string>', 'exec'), ...)` together with the
captured stream contents (an oracle): either a raised exception (its type name
and message) or a clean return with the final stdout/stderr buffer contents. -/
inductive RunOutcome where
  | raises (exnType msg : String)
  | returns (stdoutStr stderrStr : String)
deriving DecidableEq

/-- Outcome of the `utils.execute_sql` call made by the endpoint (an oracle):
a result (its `str` rendering), a raised `ValueError`, or any other exception. -/
inductive SqlOutcome where
  | ok (resultRepr : String)
  | valueError (msg : String)
  | exn (msg : String)
deriving DecidableEq

/-- Model of the `execute_code` endpoint (main.py lines 271-357). `parse` and
`lint` feed `is_safe_code`; `sql` is the outcome of the SQL branch's
`utils.execute_sql` call; `run` is the outcome of the `exec` step. -/
def execute_code (parse : Except String (List PyNode)) (lint : Option String)
    (sql : SqlOutcome) (run : RunOutcome) (code : String) : ExecResp :=
  if List.isPrefixOf atSqlChars (pyStrip code.data) then
    match sql with
    | SqlOutcome.ok r => ⟨true, r, none⟩
    | SqlOutcome.valueError m => ⟨false, m, some "SQLError"⟩
    | SqlOutcome.exn m => ⟨false, "Unexpected error executing SQL: " ++ m, some "SQLError"⟩
  else
    let safe := is_safe_code parse lint
    if !safe.1 then ⟨false, safe.2, some "CodeValidationError"⟩
    else
      match run with
      | RunOutcome.raises exnType msg => ⟨false, msg, some exnType⟩
      | RunOutcome.returns o e =>
        let output := pyStripStr o
        let error := pyStripStr e
        if error ≠ "" then ⟨false, error, some "RuntimeError"⟩
        else if output = "" then ⟨true, "Code executed successfully (no output)", none⟩
        else ⟨true, output, none⟩

/-! ### `functions/utils.py` — the function repository

The artifact `user_defined.py` is a text blob (`Option String`; `none` = file
absent). The Python `ast` parse of the artifact is an oracle
`String → Except String ParsedArtifact` producing what the `ast.walk` loops of
`save_function`/`list_saved_functions`/`delete_function` extract from it: the
source text of each import statement, and for each `FunctionDef` its name, its
own docstring (`ast.get_docstring`, `""` when absent) and its source line span.
The parse facts about the submitted code are a `CodeInfo`. -/

/-- A `FunctionDef` as extracted by the walk loops: name, `ast.get_docstring`
(`""` for `None`), and the text of source lines `lineno..end_lineno`. -/
structure PFunc where
  name : String
  doc : String
  text : String
deriving DecidableEq

/-- What the `ast.walk` of the artifact yields: import statement texts and
function definitions, each kind in walk order. -/
structure ParsedArtifact where
  imports : List String
  funcs : List PFunc
deriving DecidableEq

/-- Parse facts about the submitted `code` string: `ast.parse`/`compile`
outcome (`some msg` = `SyntaxError`), whether any `FunctionDef` occurs, and
the source texts of its import statements. -/
structure CodeInfo where
  parseErr : Option String
  hasFuncDef : Bool
  importTexts : List String
deriving DecidableEq

/-- Python `s.split(sep)` for a one-character separator (keeps empty pieces;
`"".split(sep) = [""]`). -/
def pySplitChar (sep : Char) : List Char → List (List Char)
  | [] => [[]]
  | c :: cs =>
    if c = sep then [] :: pySplitChar sep cs
    else
      match pySplitChar sep cs with
      | [] => [[c]]
      | l :: ls => (c :: l) :: ls

/-- Python `str.splitlines()` for `\n`-separated text (no trailing empty line). -/
def pySplitlines (cs : List Char) : List (List Char) :=
  if cs = [] then []
  else
    let parts := pySplitChar '\n' cs
    if cs.getLast? = some '\n' then parts.dropLast else parts

def pySplitlinesStr (s : String) : List String := (pySplitlines s.data).map String.mk

/-- Model of `validate_function_name` (utils.py lines 74-86): nonempty, and a
full match of `[a-zA-Z_][a-zA-Z0-9_]*`. -/
def validate_function_name (name : String) : Bool × String :=
  if name = "" then (false, "Function name cannot be empty")
  else
    match name.data with
    | [] => (false, "Function name cannot be empty")
    | c :: cs =>
      if (c.isAlpha || c = '_') && cs.all isWordChar then (true, "")
      else (false, "Invalid function name. Must start with a letter or underscore and contain only letters, numbers, and underscores")

/-- Attempt of the regex `def\s+{name}\s*\(` at the head of the input
(utils.py line 103; `name` has already passed `validate_function_name`, so it
contains no regex metacharacters). -/
def matchDefAt (name : List Char) (cs : List Char) : Bool :=
  match dropLit ['d', 'e', 'f'] cs with
  | none => false
  | some r1 =>
    if r1.takeWhile isPySpace = [] then false
    else
      match dropLit name (r1.dropWhile isPySpace) with
      | none => false
      | some r2 =>
        match r2.dropWhile isPySpace with
        | '(' :: _ => true
        | _ => false

/-- Python `re.search(rf"def\s+{name}\s*\(", content)` as a Boolean. -/
def containsDefRegex (name : List Char) : List Char → Bool
  | [] => false
  | c :: cs => matchDefAt name (c :: cs) || containsDefRegex name cs

/-- Model of `check_function_exists` (utils.py lines 88-107): `false` when the
artifact file is absent, else the regex search over its raw content. -/
def check_function_exists (artifact : Option String) (name : String) : Bool :=
  match artifact with
  | none => false
  | some content => containsDefRegex name.data content.data

/-- Model of `validate_python_function` (utils.py lines 51-72) over the parse
facts of the submitted code. -/
def validate_python_function (ci : CodeInfo) : Bool × String :=
  match ci.parseErr with
  | some e => (false, "Syntax error: " ++ e)
  | none =>
    if !ci.hasFuncDef then (false, "No function definition found in the code")
    else (true, "")

/-- The fresh-artifact header written by `save_function` (utils.py lines 147-148)
and used as the first line of every serialization. -/
def artifactHeader : String := "# User-defined functions\n\n"

/-- The import block `list(set(imports + new_imports))` of utils.py line 214:
artifact imports concatenated with the new code's imports, enumerated by the
`set` order oracle `setList`. This list, joined with newlines, is the import
section of every artifact written by a successful save. -/
def save_all_imports (artImports newImports : List String)
    (setList : List String → List String) : List String :=
  setList (artImports ++ newImports)

/-- The metadata block of utils.py line 208. -/
def metadataDocstring (description : String) (tags : List String)
    (language : String) : String :=
  "\"\"\"\n" ++ description ++ "\n\nTags: " ++ pyJoin ", " tags ++ "\nLanguage: "
    ++ language ++ "\n\"\"\""

/-- The submitted code with its import lines removed (utils.py lines 196-205). -/
def stripImportLines (code : String) : String :=
  pyJoin "\n" ((pySplitlinesStr code).filter (fun l =>
    !(List.isPrefixOf "import ".data (pyStrip l.data)
      || List.isPrefixOf "from ".data (pyStrip l.data))))

/-- Model of `save_function` (utils.py lines 109-237). Returns the
`(success, error)` pair together with the artifact content after the call
(unchanged on the failure paths that precede any write; the source creates the
header file at lines 146-148 before parsing, so a parse failure leaves the
header behind when the artifact was absent or empty). -/
def save_function (setList : List String → List String)
    (parseArt : String → Except String ParsedArtifact) (codeInfo : CodeInfo)
    (artifact : Option String) (name code description : String)
    (tags : List String) (language : String) (is_update : Bool) :
    (Bool × String) × Option String :=
  let nameCheck := validate_function_name name
  if !nameCheck.1 then ((false, nameCheck.2), artifact)
  else
    let exists_ := check_function_exists artifact name
    if exists_ && !is_update then
      ((false, "A function named '" ++ name ++ "' already exists"), artifact)
    else if !exists_ && is_update then
      ((false, "Function '" ++ name ++ "' not found"), artifact)
    else
      let codeCheck := if language = "python" then validate_python_function codeInfo
                       else (true, "")
      if !codeCheck.1 then ((false, codeCheck.2), artifact)
      else
        let content := match artifact with
          | none => artifactHeader
          | some s => if s = "" then artifactHeader else s
        match parseArt content with
        | Except.error e => ((false, "Failed to save function: " ++ e), some content)
        | Except.ok pa =>
          let kept := pa.funcs.filter (fun f => !(f.name = name && is_update))
          let filteredCode := stripImportLines code
          let allImports := save_all_imports pa.imports codeInfo.importTexts setList
          let newContent := artifactHeader
            ++ (if allImports.isEmpty then "" else pyJoin "\n" allImports ++ "\n\n")
            ++ kept.foldl (fun acc f =>
                 acc ++ (if f.doc ≠ "" then "\n" ++ f.doc ++ "\n" else "")
                   ++ "\n" ++ f.text ++ "\n") ""
            ++ "\n" ++ metadataDocstring description tags language ++ "\n"
            ++ filteredCode ++ "\n"
          ((true, ""), some newContent)

/-- One entry of `list_saved_functions`'s result (utils.py lines 288-296); the
`created_at`/`updated_at` wall-clock timestamps are not modelled. -/
structure FuncRecord where
  name : String
  description : String
  tags : List String
  language : String
  code : String
deriving DecidableEq

/-- The `line[5:]`-style slice used by the docstring metadata parser. -/
def lineSliceFrom (l : List Char) (n : Nat) : List Char := l.drop n

/-- The tag list parsed from a `Tags:` line (utils.py line 278): `line[5:]`
split on commas, each piece stripped, empty pieces dropped. -/
def parseTagsLine (line : List Char) : List String :=
  (((pySplitChar ',' (lineSliceFrom line 5)).map pyStrip).filter
    (fun t => t ≠ [])).map String.mk

/-- The docstring metadata extraction of `list_saved_functions` (utils.py lines
265-280): split on newlines; the description is the first line with nonempty
strip (taken unstripped); a line whose strip starts with `Tags:` resets the
tags from `line[5:]`; one whose strip starts with `Language:` resets the
language from `line[9:]` stripped; later matching lines win. -/
def parseDocMeta (doc : String) : String × List String × String :=
  let lines := pySplitChar '\n' doc.data
  let description := match lines.find? (fun l => pyStrip l ≠ []) with
    | some l => String.mk l
    | none => ""
  let tags := lines.foldl (fun acc l =>
    if List.isPrefixOf "Tags:".data (pyStrip l) then parseTagsLine l else acc) []
  let language := lines.foldl (fun acc l =>
    if List.isPrefixOf "Language:".data (pyStrip l) then
      String.mk (pyStrip (lineSliceFrom l 9))
    else acc) "python"
  (description, tags, language)

/-- Model of `list_saved_functions` (utils.py lines 239-301): absent file or a
raising parse yields `[]`; otherwise one record per walked `FunctionDef`, the
metadata decoded from that function's own docstring and the `code` field being
its source line span. -/
def list_saved_functions (parseArt : String → Except String ParsedArtifact)
    (artifact : Option String) : List FuncRecord :=
  match artifact with
  | none => []
  | some content =>
    match parseArt content with
    | Except.error _ => []
    | Except.ok pa =>
      pa.funcs.map (fun f =>
        let m := parseDocMeta f.doc
        ⟨f.name, m.1, m.2.1, m.2.2, f.text⟩)

/-- Model of `delete_function` (utils.py lines 303-361): keep every function
whose name differs, error if none matched, and rewrite the artifact (each kept
function preceded by its docstring re-quoted in triple quotes; the whole text
`rstrip`ped with a final newline). Imports are not collected and therefore do
not survive a delete. -/
def delete_function (parseArt : String → Except String ParsedArtifact)
    (artifact : Option String) (name : String) : (Bool × String) × Option String :=
  match artifact with
  | none => ((false, "Functions file not found"), none)
  | some content =>
    match parseArt content with
    | Except.error e => ((false, "Failed to delete function: " ++ e), some content)
    | Except.ok pa =>
      if pa.funcs.all (fun f => f.name ≠ name) then
        ((false, "Function '" ++ name ++ "' not found"), some content)
      else
        let kept := pa.funcs.filter (fun f => f.name ≠ name)
        let body := kept.foldl (fun acc f =>
          acc ++ (if f.doc ≠ "" then "\"\"\"\n" ++ f.doc ++ "\n\"\"\"\n" else "")
            ++ f.text ++ "\n\n") ""
        ((true, ""), some (pyRStripStr (artifactHeader ++ body) ++ "\n"))

/-! ### Generic helper lemmas -/

/-- Substring test over character lists (used to state that an error message
does or does not name a module/dataset). -/
def containsSub (needle : List Char) : List Char → Bool
  | [] => needle.isEmpty
  | c :: cs => List.isPrefixOf needle (c :: cs) || containsSub needle cs

theorem containsSub_refl_append (n : List Char) : ∀ b : List Char,
    containsSub n (n ++ b) = true := by
  intro b
  cases n with
  | nil =>
    cases b with
    | nil => rfl
    | cons c cs => simp [containsSub]
  | cons c cs =>
    have hp : List.isPrefixOf (c :: cs) ((c :: cs) ++ b) = true := by
      rw [List.isPrefixOf_iff_prefix]
      exact List.prefix_append _ _
    show (List.isPrefixOf (c :: cs) ((c :: cs) ++ b) || containsSub (c :: cs) (cs ++ b)) = true
    rw [hp]
    simp

theorem containsSub_of_append (n : List Char) : ∀ (a b : List Char),
    containsSub n (a ++ n ++ b) = true
  | [], b => by simpa using containsSub_refl_append n b
  | c :: a, b => by
    show (_ || containsSub n (a ++ n ++ b)) = true
    rw [containsSub_of_append n a b]
    simp

/-- If a string decomposes around `n`, then `containsSub` finds `n` in it. -/
theorem containsSub_of_decomp (n h : List Char)
    (hd : ∃ a b : List Char, h = a ++ n ++ b) : containsSub n h = true := by
  obtain ⟨a, b, rfl⟩ := hd
  exact containsSub_of_append n a b

/-- An element of the joined list occurs verbatim inside the Python join. -/
theorem pyJoin_mem_decomp (sep : String) : ∀ (l : List String) (n : String),
    n ∈ l → ∃ a b : List Char, (pyJoin sep l).data = a ++ n.data ++ b
  | [], n, h => by simp at h
  | [x], n, h => by
    simp at h
    subst h
    exact ⟨[], [], by simp [pyJoin]⟩
  | x :: y :: xs, n, h => by
    rcases List.mem_cons.mp h with h | h
    · subst h
      refine ⟨[], (sep ++ pyJoin sep (y :: xs)).data, ?_⟩
      show (n ++ sep ++ pyJoin sep (y :: xs)).data = _
      simp [String.data_append]
    · obtain ⟨a, b, hab⟩ := pyJoin_mem_decomp sep (y :: xs) n h
      refine ⟨(x ++ sep).data ++ a, b, ?_⟩
      show (x ++ sep ++ pyJoin sep (y :: xs)).data = _
      simp [String.data_append, hab]

/-- Pulling a `findSome?` of an if-then-mapped function through `Option.map`. -/
theorem findSome?_if_map {α β : Type} (p : α → Bool) (g : α → β) :
    ∀ l : List α,
      l.findSome? (fun n => if p n then none else some (g n)) =
        (l.findSome? (fun n => if p n then none else some n)).map g
  | [] => by simp
  | x :: xs => by
    by_cases hp : p x
    · simp only [List.findSome?_cons, hp, if_true]
      exact findSome?_if_map p g xs
    · simp [List.findSome?_cons, hp]

/-- A member on which `f` succeeds forces `findSome?` to succeed. -/
theorem findSome?_ne_none_of_mem {α β : Type} (f : α → Option β) (l : List α)
    (x : α) (hx : x ∈ l) (hfx : f x ≠ none) : l.findSome? f ≠ none := by
  intro hnone
  exact hfx (List.findSome?_eq_none_iff.mp hnone x hx)

/-! ### Claims -/

/-- C8: the query-directive parser is a pure total function — it is defined for
every input string (it is a Lean function into a plain tuple type, with no
failure mode) — and on `"SELECT * FROM orders JOIN items -- save_as: result"` it
yields `persist_as = "result"` and `referenced_tables` equal, as a set, to
`{"orders", "items"}` (the `set` enumeration order `setList` being arbitrary). -/
theorem C8_parse_total_and_example (setList : List String → List String)
    (hs : SetListSpec setList) :
    (parse_sql_code setList "SELECT * FROM orders JOIN items -- save_as: result").2.1
        = some "result" ∧
    (∀ x : String,
      x ∈ (parse_sql_code setList "SELECT * FROM orders JOIN items -- save_as: result").2.2
        ↔ x ∈ (["orders", "items"] : List String)) ∧
    (∀ s : String, ∃ t, parse_sql_code setList s = t) := by
  refine ⟨?_, ?_, fun s => ⟨_, rfl⟩⟩
  · show save_directive "SELECT * FROM orders JOIN items -- save_as: result" = some "result"
    decide
  intro x
  show x ∈ setList (referenced_tables_raw "SELECT * FROM orders JOIN items -- save_as: result") ↔ _
  have h : referenced_tables_raw "SELECT * FROM orders JOIN items -- save_as: result"
      = ["orders", "items"] := by decide
  rw [h]
  exact (hs ["orders", "items"]).2 x

/-- Witness for C8 at the concrete `set` enumeration `List.dedup`. -/
theorem C8_parse_total_and_example_witness :
    SetListSpec (fun l => l.dedup) ∧
    (parse_sql_code (fun l => l.dedup)
        "SELECT * FROM orders JOIN items -- save_as: result").2.1 = some "result" ∧
    ("orders" ∈ (parse_sql_code (fun l => l.dedup)
        "SELECT * FROM orders JOIN items -- save_as: result").2.2
      ↔ "orders" ∈ (["orders", "items"] : List String)) :=
  ⟨dedup_setListSpec,
   (C8_parse_total_and_example _ dedup_setListSpec).1,
   (C8_parse_total_and_example _ dedup_setListSpec).2.1 "orders"⟩

/-- C6: whenever some referenced table has no dataset, `execute_sql` fails with
a single error whose message is built from the list of ALL missing names (the
filter keeps every missing one), and the message contains each missing name
verbatim. -/
theorem C6_missing_datasets_aggregated (setList : List String → List String)
    (existsFn : String → Bool) (engine : EngineOutcome) (code : String)
    (hmiss : ∃ n, n ∈ (parse_sql_code setList code).2.2 ∧ existsFn n = false) :
    execute_sql setList existsFn engine code =
      Except.error ("Missing datasets: " ++ pyJoin ", "
        (((parse_sql_code setList code).2.2).filter (fun n => !existsFn n))) ∧
    ∀ n, n ∈ (parse_sql_code setList code).2.2 → existsFn n = false →
      ∃ a b : List Char,
        ("Missing datasets: " ++ pyJoin ", "
          (((parse_sql_code setList code).2.2).filter (fun n => !existsFn n))).data
            = a ++ n.data ++ b := by
  obtain ⟨n0, hn0, hex0⟩ := hmiss
  constructor
  · show (if !(validate_datasets (parse_sql_code setList code).2.2 existsFn).1 then _ else _) = _
    have hne : ((parse_sql_code setList code).2.2).filter (fun n => !existsFn n) ≠ [] := by
      intro hnil
      have : n0 ∈ ((parse_sql_code setList code).2.2).filter (fun n => !existsFn n) :=
        List.mem_filter.mpr ⟨hn0, by simp [hex0]⟩
      rw [hnil] at this
      simp at this
    have hval : (validate_datasets (parse_sql_code setList code).2.2 existsFn).1 = false := by
      show (((parse_sql_code setList code).2.2).filter (fun n => !existsFn n)).isEmpty = false
      rw [List.isEmpty_eq_false]
      exact hne
    rw [hval]
    rfl
  · intro n hn hex
    have hmem : n ∈ ((parse_sql_code setList code).2.2).filter (fun n => !existsFn n) :=
      List.mem_filter.mpr ⟨hn, by simp [hex]⟩
    obtain ⟨a, b, hab⟩ := pyJoin_mem_decomp ", " _ n hmem
    refine ⟨("Missing datasets: ").data ++ a, b, ?_⟩
    rw [String.data_append, hab]
    simp [List.append_assoc]

/-- Witness for C6: two referenced tables, both missing; both names appear in
the single error message. -/
theorem C6_missing_datasets_aggregated_witness :
    (∃ n, n ∈ (parse_sql_code (fun l => l.dedup) "SELECT * FROM a JOIN b").2.2
        ∧ (fun _ : String => false) n = false) ∧
    execute_sql (fun l => l.dedup) (fun _ => false) (EngineOutcome.ok "df")
        "SELECT * FROM a JOIN b" = Except.error "Missing datasets: a, b" := by
  have hm : ∃ n, n ∈ (parse_sql_code (fun l => l.dedup) "SELECT * FROM a JOIN b").2.2
      ∧ (fun _ : String => false) n = false := ⟨"a", by decide, rfl⟩
  have h := C6_missing_datasets_aggregated (fun l => l.dedup) (fun _ => false)
    (EngineOutcome.ok "df") "SELECT * FROM a JOIN b" hm
  refine ⟨hm, ?_⟩
  rw [h.1]
  congr 1

/-- C10: a submission whose stripped code starts with `@sql` is routed to the
SQL branch: the response is exactly the rendering of the `execute_sql` call's
outcome, and it is independent of the `ast` parse, the linter, and the exec
outcome — `is_safe_code` is never consulted, so SQL-tagged text is exempt from
the import allow-list, the call deny-list, and the lint pass. -/
theorem C10_sql_exempt_from_validation (code : String)
    (hsql : List.isPrefixOf atSqlChars (pyStrip code.data) = true)
    (p1 p2 : Except String (List PyNode)) (l1 l2 : Option String)
    (sql : SqlOutcome) (r1 r2 : RunOutcome) :
    execute_code p1 l1 sql r1 code = execute_code p2 l2 sql r2 code ∧
    execute_code p1 l1 sql r1 code = (match sql with
      | SqlOutcome.ok r => ⟨true, r, none⟩
      | SqlOutcome.valueError m => ⟨false, m, some "SQLError"⟩
      | SqlOutcome.exn m =>
          ⟨false, "Unexpected error executing SQL: " ++ m, some "SQLError"⟩) := by
  unfold execute_code
  simp only [hsql]
  exact ⟨rfl, rfl⟩

/-- Witness for C10: an `@sql` submission with a denied-call parse and a lint
finding still returns the SQL branch's success result. -/
theorem C10_sql_exempt_from_validation_witness :
    List.isPrefixOf atSqlChars (pyStrip ("  @sql SELECT * FROM t" : String).data) = true ∧
    execute_code (Except.ok [PyNode.callName "eval"]) (some "E501 line too long")
        (SqlOutcome.ok "shape: (1, 1)") (RunOutcome.raises "ValueError" "boom")
        "  @sql SELECT * FROM t"
      = execute_code (Except.error "syntax error") none (SqlOutcome.ok "shape: (1, 1)")
          (RunOutcome.returns "" "") "  @sql SELECT * FROM t" ∧
    execute_code (Except.ok [PyNode.callName "eval"]) (some "E501 line too long")
        (SqlOutcome.ok "shape: (1, 1)") (RunOutcome.raises "ValueError" "boom")
        "  @sql SELECT * FROM t" = ⟨true, "shape: (1, 1)", none⟩ := by
  have hsql : List.isPrefixOf atSqlChars (pyStrip ("  @sql SELECT * FROM t" : String).data)
      = true := by decide
  have h := C10_sql_exempt_from_validation "  @sql SELECT * FROM t" hsql
    (Except.ok [PyNode.callName "eval"]) (Except.error "syntax error")
    (some "E501 line too long") none (SqlOutcome.ok "shape: (1, 1)")
    (RunOutcome.raises "ValueError" "boom") (RunOutcome.returns "" "")
  exact ⟨hsql, h.1, h.2⟩

/-- C2: for a non-SQL submission that parses and whose walked nodes trigger no
policy violation (all imports allow-listed, no denied bare-name call), the
endpoint returns a structured result on every path — the model is a total
function, mirroring the source's blanket exception handlers: a lint finding
yields a `CodeValidationError` result; a raised exception is captured as
`success = false` with the exception's type name in `error_type` and its
message as `output`; a clean return with nonempty (stripped) stderr is a
failure with `error_type = "RuntimeError"` and the stderr as `output`. -/
theorem C2_execute_captures_failures (code : String) (nodes : List PyNode)
    (hsql : List.isPrefixOf atSqlChars (pyStrip code.data) = false)
    (hclean : ∀ nd ∈ nodes, nodeCheck nd = none) :
    (∀ (l : String) (sql : SqlOutcome) (run : RunOutcome),
      execute_code (Except.ok nodes) (some l) sql run code
        = ⟨false, l, some "CodeValidationError"⟩) ∧
    (∀ (ty msg : String) (sql : SqlOutcome),
      execute_code (Except.ok nodes) none sql (RunOutcome.raises ty msg) code
        = ⟨false, msg, some ty⟩) ∧
    (∀ (o e : String) (sql : SqlOutcome), pyStripStr e ≠ "" →
      execute_code (Except.ok nodes) none sql (RunOutcome.returns o e) code
        = ⟨false, pyStripStr e, some "RuntimeError"⟩) := by
  have hfs : nodes.findSome? nodeCheck = none := List.findSome?_eq_none_iff.mpr hclean
  refine ⟨?_, ?_, ?_⟩
  · intro l sql run
    unfold execute_code
    simp only [hsql, Bool.false_eq_true, if_false, is_safe_code, hfs]
    rfl
  · intro ty msg sql
    unfold execute_code
    simp only [hsql, Bool.false_eq_true, if_false, is_safe_code, hfs]
    rfl
  · intro o e sql he
    unfold execute_code
    simp only [hsql, Bool.false_eq_true, if_false, is_safe_code, hfs]
    rw [if_pos he]
    simp

/-- Witness for C2: `print(1)`-style submission (one bare-name call to an
allowed function), exercising the exception-capture conclusion. -/
theorem C2_execute_captures_failures_witness :
    List.isPrefixOf atSqlChars (pyStrip ("print(1)" : String).data) = false ∧
    (∀ nd ∈ [PyNode.other, PyNode.callName "print"], nodeCheck nd = none) ∧
    execute_code (Except.ok [PyNode.other, PyNode.callName "print"]) none
        (SqlOutcome.ok "unused") (RunOutcome.raises "ZeroDivisionError" "division by zero")
        "print(1)"
      = ⟨false, "division by zero", some "ZeroDivisionError"⟩ ∧
    execute_code (Except.ok [PyNode.other, PyNode.callName "print"]) none
        (SqlOutcome.ok "unused") (RunOutcome.returns "out" " warning ") "print(1)"
      = ⟨false, "warning", some "RuntimeError"⟩ := by
  have hsql : List.isPrefixOf atSqlChars (pyStrip ("print(1)" : String).data) = false := by
    decide
  have hclean : ∀ nd ∈ [PyNode.other, PyNode.callName "print"], nodeCheck nd = none := by
    decide
  have h := C2_execute_captures_failures "print(1)"
    [PyNode.other, PyNode.callName "print"] hsql hclean
  refine ⟨hsql, hclean, h.2.1 "ZeroDivisionError" "division by zero" (SqlOutcome.ok "unused"), ?_⟩
  have := h.2.2 "out" " warning " (SqlOutcome.ok "unused") (by decide)
  rw [this]
  congr 1

/-- The `ast.walk` (breadth-first) node sequence of the two-statement source
`eval(x)` followed by `def h():` whose body is the single statement
`import evilmod` — namely `Module`, then `Expr` and `FunctionDef` (depth 1),
then the `Call` (child of the `Expr`) and `arguments`/`Import` (children of the
`FunctionDef`) at depth 2 — the `Expr`'s children are enqueued before the
`FunctionDef`'s, so the `Call` precedes the `Import` — then the `Name` nodes at
depth 3. -/
def c3WalkNodes : List PyNode :=
  [PyNode.other, PyNode.other, PyNode.other, PyNode.callName "eval",
   PyNode.other, PyNode.imp ["evilmod"], PyNode.other, PyNode.other]

/-- C3 counterexample: a source containing an import of the disallowed module
`evilmod` for which `is_safe_code` returns `ok = false` but a reason that names
the denied call, not the module — the walk short-circuits on the `Call` node it
reaches first, so the returned reason does not contain `evilmod` at all. -/
theorem C3_counterexample :
    PyNode.imp ["evilmod"] ∈ c3WalkNodes ∧
    importOk "evilmod" = false ∧
    is_safe_code (Except.ok c3WalkNodes) none
      = (false, "Unsafe function call detected: eval") ∧
    containsSub ("evilmod" : String).data
      ("Unsafe function call detected: eval" : String).data = false := by
  refine ⟨by decide, by decide, by decide, by decide⟩


/-- C3 (amended): a source containing an import of a module outside the
standard-library list and without an allow-listed prefix always fails
validation; and when that import is the first policy violation in `ast.walk`
order, the returned reason is the unsafe-import message, which names the
offending module verbatim. (When a denied call precedes the import in walk
order, the reason names that call instead — `C3_counterexample`.) -/
theorem C3_amended_disallowed_import (pre post : List PyNode) (names : List String)
    (lint : Option String) (m : String)
    (hpre : ∀ nd ∈ pre, nodeCheck nd = none)
    (hfirst : names.findSome? (fun n => if importOk n then none else some n) = some m) :
    is_safe_code (Except.ok (pre ++ PyNode.imp names :: post)) lint
      = (false, unsafeImportMsg m) ∧
    (∃ a b : List Char, (unsafeImportMsg m).data = a ++ m.data ++ b) ∧
    (∀ (nodes : List PyNode) (lint2 : Option String), PyNode.imp names ∈ nodes →
      (is_safe_code (Except.ok nodes) lint2).1 = false) := by
  have himp : nodeCheck (PyNode.imp names) = some (unsafeImportMsg m) := by
    show names.findSome? (fun n => if importOk n then none else some (unsafeImportMsg n))
        = some (unsafeImportMsg m)
    rw [findSome?_if_map (fun n => importOk n) unsafeImportMsg names, hfirst]
    rfl
  refine ⟨?_, ?_, ?_⟩
  · have hprenone : pre.findSome? nodeCheck = none := List.findSome?_eq_none_iff.mpr hpre
    have : (pre ++ PyNode.imp names :: post).findSome? nodeCheck
        = some (unsafeImportMsg m) := by
      rw [List.findSome?_append, hprenone, Option.none_or, List.findSome?_cons, himp]
    simp only [is_safe_code, this]
  · exact ⟨("Unsafe import detected: " : String).data,
      (" - only standard library modules, polars and mako functions are allowed" : String).data,
      by simp [unsafeImportMsg, String.data_append]⟩
  · intro nodes lint2 hmem
    have hne : nodes.findSome? nodeCheck ≠ none :=
      findSome?_ne_none_of_mem nodeCheck nodes _ hmem (by rw [himp]; exact fun h => by cases h)
    cases hfs : nodes.findSome? nodeCheck with
    | none => exact absurd hfs hne
    | some msg => simp only [is_safe_code, hfs]

/-- Witness for the amended C3: the source `import evilmod` alone — the import
is the first (and only) violation, and the reason names `evilmod`. -/
theorem C3_amended_disallowed_import_witness :
    (∀ nd ∈ ([PyNode.other] : List PyNode), nodeCheck nd = none) ∧
    (["evilmod"].findSome? (fun n => if importOk n then none else some n)
      = some "evilmod") ∧
    is_safe_code (Except.ok ([PyNode.other] ++ PyNode.imp ["evilmod"] :: [])) none
      = (false, unsafeImportMsg "evilmod") := by
  have h1 : ∀ nd ∈ ([PyNode.other] : List PyNode), nodeCheck nd = none := by decide
  have h2 : ["evilmod"].findSome? (fun n => if importOk n then none else some n)
      = some "evilmod" := by decide
  exact ⟨h1, h2,
    (C3_amended_disallowed_import [PyNode.other] [] ["evilmod"] none "evilmod" h1 h2).1⟩

/-- C1 counterexample: `create_safe_globals` binds the name `os` to the `os`
module (main.py lines 184-186), a provider of file, environment and process
primitives (`os.remove`, `os.environ`, `os.system`), so the namespace does
contain a name bound to a file/environment primitive and such primitives are
reachable by name from the execution namespace. -/
theorem C1_counterexample :
    ("os", SafeVal.module "os") ∈ create_safe_globals ∧
    bindsForbiddenPrimitive ("os", SafeVal.module "os") = true := by
  refine ⟨by decide, by decide⟩

/-- C1 (amended): the restricted namespace contains exactly the enumerated
whitelist of builtins plus handles to allow-listed modules — and none of the
builtin-function bindings is a file/network/dynamic-evaluation primitive — but
the module handles include the `os` module, through which file and
environment/process primitives are reachable by name. -/
theorem C1_amended_namespace_contents :
    create_safe_globals.map Prod.fst =
      ["pl", "polars", "os", "pyarrow", "bokeh", "storage", "bigquery",
       "bigquery_storage", "sklearn", "matplotlib", "plt", "seaborn", "sns",
       "datetime", "timedelta", "date", "time", "timezone", "random", "functions",
       "abs", "all", "any", "bool", "dict", "enumerate", "filter", "float",
       "format", "frozenset", "int", "isinstance", "len", "list", "map", "max",
       "min", "print", "range", "repr", "reversed", "round", "set", "slice",
       "sorted", "str", "sum", "tuple", "zip"] ∧
    (create_safe_globals.all (fun p => match p.2 with
      | SafeVal.builtinFn f => !specDangerousBuiltins.contains f
      | _ => true)) = true ∧
    ("os", SafeVal.module "os") ∈ create_safe_globals := by
  refine ⟨by decide, by decide, by decide⟩

/-- C7: with a valid function name, `save_function` with `is_update = false`
fails with the name-conflict error when a function of that name already exists
in the artifact (per the repository's own existence check), and with
`is_update = true` fails with the not-found error when it does not; in both
failure cases the artifact state is returned unchanged (the source returns
before any file write). -/
theorem C7_save_update_flag_checks (setList : List String → List String)
    (parseArt : String → Except String ParsedArtifact) (codeInfo : CodeInfo)
    (artifact : Option String) (name code description : String)
    (tags : List String) (language : String)
    (hname : validate_function_name name = (true, "")) :
    (check_function_exists artifact name = true →
      save_function setList parseArt codeInfo artifact name code description tags
          language false
        = ((false, "A function named '" ++ name ++ "' already exists"), artifact)) ∧
    (check_function_exists artifact name = false →
      save_function setList parseArt codeInfo artifact name code description tags
          language true
        = ((false, "Function '" ++ name ++ "' not found"), artifact)) := by
  constructor
  · intro hex
    unfold save_function
    rw [hname, hex]
    simp
  · intro hex
    unfold save_function
    rw [hname, hex]
    simp

/-- Witness for C7 at a concrete artifact holding `def foo(x): ...`. -/
theorem C7_save_update_flag_checks_witness :
    validate_function_name "foo" = (true, "") ∧
    check_function_exists
      (some "# User-defined functions\n\ndef foo(x):\n    return x\n") "foo" = true ∧
    save_function (fun l => l.dedup) (fun _ => Except.ok ⟨[], []⟩) ⟨none, true, []⟩
        (some "# User-defined functions\n\ndef foo(x):\n    return x\n")
        "foo" "def foo(x):\n    return x + 1" "" [] "python" false
      = ((false, "A function named '" ++ "foo" ++ "' already exists"),
         some "# User-defined functions\n\ndef foo(x):\n    return x\n") ∧
    check_function_exists
      (some "# User-defined functions\n\ndef foo(x):\n    return x\n") "bar" = false ∧
    save_function (fun l => l.dedup) (fun _ => Except.ok ⟨[], []⟩) ⟨none, true, []⟩
        (some "# User-defined functions\n\ndef foo(x):\n    return x\n")
        "bar" "def bar(x):\n    return x" "" [] "python" true
      = ((false, "Function '" ++ "bar" ++ "' not found"),
         some "# User-defined functions\n\ndef foo(x):\n    return x\n") := by
  have hfoo : validate_function_name "foo" = (true, "") := by decide
  have hbar : validate_function_name "bar" = (true, "") := by decide
  have hex1 : check_function_exists
      (some "# User-defined functions\n\ndef foo(x):\n    return x\n") "foo" = true := by
    decide
  have hex2 : check_function_exists
      (some "# User-defined functions\n\ndef foo(x):\n    return x\n") "bar" = false := by
    decide
  refine ⟨hfoo, hex1, ?_, hex2, ?_⟩
  · exact (C7_save_update_flag_checks (fun l => l.dedup) (fun _ => Except.ok ⟨[], []⟩)
      ⟨none, true, []⟩ _ "foo" "def foo(x):\n    return x + 1" "" [] "python" hfoo).1 hex1
  · exact (C7_save_update_flag_checks (fun l => l.dedup) (fun _ => Except.ok ⟨[], []⟩)
      ⟨none, true, []⟩ _ "bar" "def bar(x):\n    return x" "" [] "python" hbar).2 hex2

/-- Codepoint-lexicographic comparison on character lists (the order Python's
`sorted` uses on strings). -/
def lexLe : List Char → List Char → Bool
  | [], _ => true
  | _ :: _, [] => false
  | a :: as, b :: bs => if a = b then lexLe as bs else decide (a.toNat < b.toNat)

/-- Python string order (codepoint lexicographic). -/
def pyStrLe (a b : String) : Bool := lexLe a.data b.data

/-- The artifact used by the C9 counterexample: one stored function and the
single import line `import zlib`. -/
def c9Artifact : String :=
  "# User-defined functions\n\nimport zlib\n\ndef old(x):\n    return x\n"

/-- The `ast` parse oracle for the C9 counterexample, truthful at the two
contents on which it is evaluated: `c9Artifact` holds one import statement and
one `FunctionDef` named `old` with no docstring. -/
def c9ParseArt : String → Except String ParsedArtifact := fun s =>
  if s = c9Artifact then
    Except.ok ⟨["import zlib"], [⟨"old", "", "def old(x):\n    return x"⟩]⟩
  else Except.ok ⟨[], []⟩

/-- C9 counterexample: a successful save whose emitted import section is
`import zlib` before `import array` — deduplicated but NOT sorted. The block is
`list(set(imports + new_imports))` (main.py has no `sorted(...)` call), so its
order is the `set` enumeration order; under the legitimate enumeration
`List.dedup` (first-occurrence order) the block is out of order, refuting the
claim that the import block of every successful mutation is written sorted. -/
theorem C9_counterexample :
    SetListSpec (fun l => l.dedup) ∧
    save_function (fun l => l.dedup) c9ParseArt ⟨none, true, ["import array"]⟩
        (some c9Artifact) "f" "import array\ndef f(x):\n    return x" "" [] "python" false
      = ((true, ""),
         some "# User-defined functions\n\nimport zlib\nimport array\n\n\ndef old(x):\n    return x\n\n\"\"\"\n\n\nTags: \nLanguage: python\n\"\"\"\ndef f(x):\n    return x\n") ∧
    save_all_imports ["import zlib"] ["import array"] (fun l => l.dedup)
      = ["import zlib", "import array"] ∧
    ¬ List.Sorted (fun a b : String => pyStrLe a b = true)
        ["import zlib", "import array"] := by
  refine ⟨dedup_setListSpec, by decide, by decide, ?_⟩
  intro h
  have hle : pyStrLe "import zlib" "import array" = true :=
    (List.sorted_cons.mp h).1 "import array" (by simp)
  have hnot : pyStrLe "import zlib" "import array" = false := by decide
  rw [hnot] at hle
  cases hle

/-- C9 (amended): after every successful save, the import block — which
`save_function` writes, newline-joined, as the artifact's import section — is
`save_all_imports`, and it contains no duplicate lines for every legitimate
`set` enumeration; its order is the enumeration order and is not sorted in
general (`C9_counterexample`); a delete drops the import section entirely. -/
theorem C9_amended_import_block_nodup (setList : List String → List String)
    (hs : SetListSpec setList) (artImports newImports : List String) :
    (save_all_imports artImports newImports setList).Nodup :=
  (hs (artImports ++ newImports)).1

/-- Witness for the amended C9 at the `List.dedup` enumeration and the
counterexample's import lists. -/
theorem C9_amended_import_block_nodup_witness :
    SetListSpec (fun l => l.dedup) ∧
    (save_all_imports ["import zlib"] ["import array"] (fun l => l.dedup)).Nodup :=
  ⟨dedup_setListSpec,
   C9_amended_import_block_nodup (fun l => l.dedup) dedup_setListSpec
     ["import zlib"] ["import array"]⟩

/-- The artifact written by the C4 failing input: save of `f` with description
`"Doubles x"` and tags `["math"]` onto an absent repository. The metadata block
is emitted at module level, BEFORE `def f`, not as `f`'s docstring. -/
def c4Content : String :=
  "# User-defined functions\n\n\n\"\"\"\nDoubles x\n\nTags: math\nLanguage: python\n\"\"\"\ndef f(x):\n    return x * 2\n"

/-- The `ast` parse oracle for C4, truthful on the two contents it is applied
to: the fresh header parses to nothing, and `c4Content` parses to a single
`FunctionDef f` whose own docstring is absent (`ast.get_docstring` returns
`None`, since the metadata string sits at module level before the `def` and is
not the function's first statement). -/
def c4ParseArt : String → Except String ParsedArtifact := fun s =>
  if s = c4Content then
    Except.ok ⟨[], [⟨"f", "", "def f(x):\n    return x * 2"⟩]⟩
  else Except.ok ⟨[], []⟩

/-- C4: the parse→serialize round-trip loses the stored metadata. A successful
save of `f` with description `"Doubles x"`, tags `["math"]`, language
`"python"` writes `c4Content`; the subsequent list re-derives metadata from the
FUNCTION's own docstring (which is empty — the metadata block was written at
module level), so it returns description `""`, tags `[]` instead of the stored
values: the repository does not round-trip metadata. -/
theorem C4_roundtrip_loses_metadata :
    save_function (fun l => l.dedup) c4ParseArt ⟨none, true, []⟩ none
        "f" "def f(x):\n    return x * 2" "Doubles x" ["math"] "python" false
      = ((true, ""), some c4Content) ∧
    list_saved_functions c4ParseArt (some c4Content)
      = [⟨"f", "", [], "python", "def f(x):\n    return x * 2"⟩] ∧
    ("Doubles x" : String) ≠ "" ∧
    (["math"] : List String) ≠ [] := by
  refine ⟨by decide, by decide, by decide, by decide⟩

/-- The artifact written by the C5 counterexample's save. -/
def c5Content : String :=
  "# User-defined functions\n\n\n\"\"\"\ndoubles\n\nTags: \nLanguage: python\n\"\"\"\ndef g(x):\n    return x\n"

/-- The `ast` parse oracle for the C5 counterexample, truthful at the two
contents it is applied to. -/
def c5ParseArt : String → Except String ParsedArtifact := fun s =>
  if s = c5Content then
    Except.ok ⟨[], [⟨"g", "", "def g(x):\n    return x"⟩]⟩
  else Except.ok ⟨[], []⟩

/-- C5 counterexample: `save_function` never checks that the submitted code
defines a function NAMED `name` (`validate_python_function` only requires SOME
`FunctionDef`), so saving code `def g(...)` under the name `"f"` succeeds — and
the subsequent list contains no entry named `"f"` at all, refuting the claim
that a successful save of name `f` followed by list yields exactly one entry
named `f`. -/
theorem C5_counterexample :
    save_function (fun l => l.dedup) c5ParseArt ⟨none, true, []⟩ none
        "f" "def g(x):\n    return x" "doubles" [] "python" false
      = ((true, ""), some c5Content) ∧
    (list_saved_functions c5ParseArt (some c5Content)).all
      (fun r => r.name ≠ "f") = true := by
  refine ⟨by decide, by decide⟩

/-- C5 (amended): provided the saved code's parse yields exactly one function
definition and it is named `f` (the source never checks this, hence the
proviso — `C5_counterexample`): after a successful save whose written artifact
parses to that single definition, list yields exactly one entry, named `f`,
whose code field is the definition text the parser re-extracts (the submitted
code up to import-line removal and surrounding whitespace); and a delete of `f`
then rewrites the artifact to the bare header, after which list yields no entry
named `f`. -/
theorem C5_amended_save_list_delete (parseArt : String → Except String ParsedArtifact)
    (codeInfo : CodeInfo) (artifact : Option String)
    (setList : List String → List String)
    (name code description : String) (tags : List String) (language : String)
    (nc d body : String)
    (hsave : save_function setList parseArt codeInfo artifact name code description
        tags language false = ((true, ""), some nc))
    (hparse : parseArt nc = Except.ok ⟨[], [⟨name, d, body⟩]⟩)
    (hfinal : parseArt "# User-defined functions\n" = Except.ok ⟨[], []⟩) :
    (list_saved_functions parseArt (some nc)).map FuncRecord.name = [name] ∧
    (list_saved_functions parseArt (some nc)).map FuncRecord.code = [body] ∧
    delete_function parseArt (some nc) name
      = ((true, ""), some "# User-defined functions\n") ∧
    list_saved_functions parseArt (some "# User-defined functions\n") = [] := by
  refine ⟨?_, ?_, ?_, ?_⟩
  · simp [list_saved_functions, hparse]
  · simp [list_saved_functions, hparse]
  · unfold delete_function
    dsimp only
    rw [hparse]
    have hne : (decide (name ≠ name)) = false := by simp
    simp only [List.all_cons, List.all_nil, List.filter_cons, List.filter_nil, hne,
      Bool.and_true, Bool.false_eq_true, if_false, List.foldl_nil]
    decide
  · simp [list_saved_functions, hfinal]

/-- The artifact written by the C5 witness's save (code defining `f`, saved
under the name `f`). -/
def c5wContent : String :=
  "# User-defined functions\n\n\n\"\"\"\ndbl\n\nTags: \nLanguage: python\n\"\"\"\ndef f(x):\n    return x\n"

/-- The `ast` parse oracle for the C5 witness, truthful at the contents it is
applied to (`c5wContent` holds a single `FunctionDef f` with no own docstring;
the bare header and post-delete artifact parse to nothing). -/
def c5wParseArt : String → Except String ParsedArtifact := fun s =>
  if s = c5wContent then
    Except.ok ⟨[], [⟨"f", "", "def f(x):\n    return x"⟩]⟩
  else Except.ok ⟨[], []⟩

/-- Witness for the amended C5 at a concrete save/list/delete cycle. -/
theorem C5_amended_save_list_delete_witness :
    save_function (fun l => l.dedup) c5wParseArt ⟨none, true, []⟩ none
        "f" "def f(x):\n    return x" "dbl" [] "python" false
      = ((true, ""), some c5wContent) ∧
    c5wParseArt c5wContent = Except.ok ⟨[], [⟨"f", "", "def f(x):\n    return x"⟩]⟩ ∧
    c5wParseArt "# User-defined functions\n" = Except.ok ⟨[], []⟩ ∧
    (list_saved_functions c5wParseArt (some c5wContent)).map FuncRecord.name = ["f"] ∧
    (list_saved_functions c5wParseArt (some c5wContent)).map FuncRecord.code
      = ["def f(x):\n    return x"] ∧
    delete_function c5wParseArt (some c5wContent) "f"
      = ((true, ""), some "# User-defined functions\n") ∧
    list_saved_functions c5wParseArt (some "# User-defined functions\n") = [] := by
  have hsave : save_function (fun l => l.dedup) c5wParseArt ⟨none, true, []⟩ none
      "f" "def f(x):\n    return x" "dbl" [] "python" false
    = ((true, ""), some c5wContent) := by decide
  have hparse : c5wParseArt c5wContent
      = Except.ok ⟨[], [⟨"f", "", "def f(x):\n    return x"⟩]⟩ := by
    unfold c5wParseArt
    rw [if_pos rfl]
  have hfinal : c5wParseArt "# User-defined functions\n" = Except.ok ⟨[], []⟩ := by
    unfold c5wParseArt
    rw [if_neg (by decide)]
  have h := C5_amended_save_list_delete c5wParseArt ⟨none, true, []⟩ none
    (fun l => l.dedup) "f" "def f(x):\n    return x" "dbl" [] "python"
    c5wContent "" "def f(x):\n    return x" hsave hparse hfinal
  exact ⟨hsave, hparse, hfinal, h.1, h.2.1, h.2.2.1, h.2.2.2⟩
